import Mathlib

/-!
Verification of the signal-extraction and change-notification engine of
`monitor_cloud.py` (BundangCloudMonitor), shallowly embedded in Lean 4.

The extractor `get_review_count` is modelled as a pure function over the
sequence of per-source fetch outcomes: each configured URL either fails in
transport (an exception anywhere between the request and the pattern run)
or yields the list of integer candidates accumulated across all regex
patterns over the response body.  The decision engine
`should_send_notification` and the run procedure `run_monitoring` are
translated directly; timestamps, logging and SMTP delivery are external
collaborators, so the send outcome enters `run_monitoring` as a boolean
parameter and history is explicit state.
-/

/-- Outcome of fetching one source URL: a transport error (exception,
timeout, non-success status), or a successful fetch whose pattern battery
accumulated the given integer candidates (`found_numbers`). -/
inductive FetchResult where
  | fetchError : FetchResult
  | success : List Int → FetchResult
deriving DecidableEq

/-- The range filter of `get_review_count`: `600 <= n <= 700`. -/
def inRange (n : Int) : Bool :=
  600 ≤ n && n ≤ 700

/-- `get_review_count` (monitor_cloud.py lines 111-187) over the sequence of
per-source fetch outcomes: iterate the sources in order; on a transport error
continue; on a successful fetch, if the accumulated candidates are non-empty,
filter them to the accepted range and, if any survive, return the maximum;
otherwise continue.  When every source is exhausted, return the default 663. -/
def get_review_count : List FetchResult → Int
  | [] => 663
  | FetchResult.fetchError :: rest => get_review_count rest
  | FetchResult.success found :: rest =>
    if found.isEmpty then get_review_count rest
    else
      match (found.filter inRange).max? with
      | some m => m
      | none => get_review_count rest

/-- The in-range candidates a single fetch outcome contributes (none for a
transport error). -/
def inRangeCands : FetchResult → List Int
  | FetchResult.fetchError => []
  | FetchResult.success found => found.filter inRange

/-- Modelled from the spec's extractor contract (section 4.1): the result is
the maximum in-range candidate of the first source whose candidates contain
at least one in-range value, and the fallback 663 when no source does. -/
def extract_spec (srcs : List FetchResult) : Int :=
  match srcs.find? (fun r => !(inRangeCands r).isEmpty) with
  | some r => ((inRangeCands r).max?).getD 663
  | none => 663

theorem max?_filter_none {l : List Int} (h : (l.filter inRange).max? = none) :
    l.filter inRange = [] := by
  exact List.max?_eq_none_iff.mp h

/-- C1: the extractor is total (a Lean function) and for every sequence of
per-source fetch results it returns exactly the value the contract
prescribes: the maximum in-range candidate of the first source with an
in-range candidate, and 663 when no source across the list yields one. -/
theorem get_review_count_refines_contract (srcs : List FetchResult) :
    get_review_count srcs = extract_spec srcs := by
  induction srcs with
  | nil => rfl
  | cons src rest ih =>
    cases src with
    | fetchError =>
      simp [get_review_count, extract_spec, List.find?, inRangeCands] at *
      exact ih
    | success found =>
      by_cases hemp : found.isEmpty
      · have hfe : found = [] := List.isEmpty_iff.mp hemp
        subst hfe
        simp [get_review_count, extract_spec, List.find?, inRangeCands] at *
        exact ih
      · cases hmax : (found.filter inRange).max? with
        | some m =>
          have hne : ((found.filter inRange).isEmpty) = false := by
            rw [List.isEmpty_eq_false_iff_exists_mem]
            exact ⟨m, List.max?_mem (fun a b => max_choice a b) hmax⟩
          simp [get_review_count, hemp, hmax, extract_spec, List.find?,
            inRangeCands, hne]
        | none =>
          have hfil : found.filter inRange = [] := max?_filter_none hmax
          simp [get_review_count, hemp, hmax, extract_spec, List.find?,
            inRangeCands, hfil] at *
          exact ih

/-- The notification policy, read once from the environment at startup
(monitor_cloud.py lines 23-31): `min_change_threshold` from
MIN_CHANGE_THRESHOLD, the boolean flags from NOTIFY_NO_CHANGE,
NOTIFY_STARTUP, QUIET_MODE and TEST_MODE. -/
structure Policy where
  min_change_threshold : Int
  notify_on_no_change : Bool
  notify_on_startup : Bool
  quiet_mode : Bool
  test_mode : Bool
deriving DecidableEq

/-- `should_send_notification` (monitor_cloud.py lines 189-220): decides
whether to notify and with which reason, from the last persisted count
(None when there is no history) and the current count. -/
def should_send_notification (p : Policy) (last_count : Option Int)
    (current_count : Int) : Bool × String :=
  if p.test_mode then (true, "test")
  else
    match last_count with
    | none =>
      if p.notify_on_startup then (true, "start")
      else (false, "startup_disabled")
    | some lc =>
      let change_amount : Int := |current_count - lc|
      if change_amount = 0 then
        if p.notify_on_no_change && !p.quiet_mode then (true, "no_change")
        else (false, "no_change_quiet")
      else if p.min_change_threshold ≤ change_amount then
        (true, "significant_change")
      else (false, "below_threshold")

/-- C2: with a present previous count different from the current one and
test mode off, the decision is `(true, "significant_change")` exactly when
`|current - last|` reaches the threshold, and `(false, "below_threshold")`
otherwise; a decrease counts the same as an increase of equal magnitude. -/
theorem significant_change_iff_threshold (p : Policy) (lc cc : Int)
    (htest : p.test_mode = false) (hne : lc ≠ cc) :
    should_send_notification p (some lc) cc =
      if p.min_change_threshold ≤ |cc - lc| then (true, "significant_change")
      else (false, "below_threshold") := by
  have hsub : cc - lc ≠ 0 := sub_ne_zero.mpr (Ne.symm hne)
  have habs : ¬ (|cc - lc| = 0) := fun h => hsub (abs_eq_zero.mp h)
  simp [should_send_notification, htest, habs]

theorem significant_change_iff_threshold_witness :
    should_send_notification ⟨1, false, false, true, false⟩ (some 663) 664 =
      (true, "significant_change") := by
  have h := significant_change_iff_threshold ⟨1, false, false, true, false⟩
    663 664 rfl (by decide)
  simpa using h

/-- C3: with a present previous count equal to the current one and test mode
off, the decision is `(true, "no_change")` exactly when `notify_on_no_change`
is set and `quiet_mode` is not, and `(false, "no_change_quiet")` otherwise;
the zero-change case is decided before the threshold comparison, so even a
threshold of 0 never turns an unchanged count into "significant_change". -/
theorem no_change_decision (p : Policy) (cc : Int)
    (htest : p.test_mode = false) :
    should_send_notification p (some cc) cc =
      if p.notify_on_no_change && !p.quiet_mode then (true, "no_change")
      else (false, "no_change_quiet") := by
  simp [should_send_notification, htest]

theorem no_change_decision_witness :
    should_send_notification ⟨0, false, false, true, false⟩ (some 664) 664 =
      (false, "no_change_quiet") := by
  have h := no_change_decision ⟨0, false, false, true, false⟩ 664 rfl
  simpa using h

/-- C4: whenever test mode is forced, the decision is `(true, "test")`, for
every previous count (present or absent), current count and flag setting --
test mode precedes the startup, no-change and threshold rules. -/
theorem test_mode_precedence (p : Policy) (last_count : Option Int)
    (cc : Int) (htest : p.test_mode = true) :
    should_send_notification p last_count cc = (true, "test") := by
  simp [should_send_notification, htest]

theorem test_mode_precedence_witness :
    should_send_notification ⟨1, false, false, true, true⟩ none 0 =
      (true, "test") :=
  test_mode_precedence ⟨1, false, false, true, true⟩ none 0 rfl

/-- C5: with no previous count and test mode off, the decision is
`(true, "start")` exactly when `notify_on_startup` is set, and
`(false, "startup_disabled")` otherwise, for every current count. -/
theorem startup_decision (p : Policy) (cc : Int)
    (htest : p.test_mode = false) :
    should_send_notification p none cc =
      if p.notify_on_startup then (true, "start")
      else (false, "startup_disabled") := by
  simp [should_send_notification, htest]

theorem startup_decision_witness :
    should_send_notification ⟨1, false, false, true, false⟩ none 663 =
      (false, "startup_disabled") := by
  have h := startup_decision ⟨1, false, false, true, false⟩ 663 rfl
  simpa using h

/-- One Observation record as written by `run_monitoring` (monitor_cloud.py
lines 333-345).  The timestamp fields are pure projections of the external
clock and carry no engine state, so they are omitted from the embedding. -/
structure Record where
  review_count : Int
  previous_count : Option Int
  change : Int
  notification_reason : String
  notification_sent : Bool
deriving DecidableEq

/-- The last persisted count (monitor_cloud.py lines 324-327): None when the
loaded history is empty, otherwise the last record's `review_count`. -/
def lastCount (history : List Record) : Option Int :=
  history.getLast?.map Record.review_count

/-- The `change` field of the new record (monitor_cloud.py line 342):
`current_count - last_count if last_count else 0` -- Python truthiness, so
both an absent and a zero `last_count` select the `else 0` branch. -/
def computeChange (last_count : Option Int) (current_count : Int) : Int :=
  match last_count with
  | none => 0
  | some lc => if lc = 0 then 0 else current_count - lc

/-- The new record built by `run_monitoring` (monitor_cloud.py lines
333-350): `notification_sent` starts False and becomes the send outcome only
when the decision was to notify. -/
def newRecord (p : Policy) (last_count : Option Int) (current_count : Int)
    (send_result : Bool) : Record :=
  let decision := should_send_notification p last_count current_count
  { review_count := current_count
    previous_count := last_count
    change := computeChange last_count current_count
    notification_reason := decision.2
    notification_sent := decision.1 && send_result }

/-- History truncation before saving (monitor_cloud.py line 360):
`history[-200:]`, i.e. keep the most recent 200 records. -/
def truncateHistory (history : List Record) : List Record :=
  history.drop (history.length - 200)

/-- `run_monitoring` (monitor_cloud.py lines 304-366), restricted to its
engine state: from the policy, the per-source fetch outcomes, the loaded
history and the outcome the send collaborator would report, produce the
history that is saved.  The record is appended and the history truncated and
saved whether or not the send succeeded. -/
def run_monitoring (p : Policy) (srcs : List FetchResult)
    (history : List Record) (send_result : Bool) : List Record :=
  let current_count := get_review_count srcs
  let last_count := lastCount history
  truncateHistory (history ++ [newRecord p last_count current_count send_result])

theorem truncate_append_getLast? (h : List Record) (r : Record) :
    (truncateHistory (h ++ [r])).getLast? = some r := by
  have hk : (h ++ [r]).length - 200 ≤ h.length := by
    simp only [List.length_append, List.length_singleton]
    omega
  rw [truncateHistory, List.drop_append_of_le_length hk, List.getLast?_concat]

/-- C7: for every run, the saved history is the loaded history with the new
record appended and then truncated -- persistence happens whatever the send
outcome was -- and the record's `notification_sent` is the conjunction of the
decision to notify with the send outcome: it is false whenever the send
failed or no send was attempted, and true only when a send was both
attempted and succeeded. -/
theorem persist_regardless_of_send_outcome (p : Policy)
    (srcs : List FetchResult) (history : List Record) (send_result : Bool) :
    ∃ r : Record,
      run_monitoring p srcs history send_result =
        truncateHistory (history ++ [r]) ∧
      (run_monitoring p srcs history send_result).getLast? = some r ∧
      r.notification_sent =
        ((should_send_notification p (lastCount history)
            (get_review_count srcs)).1 && send_result) := by
  refine ⟨newRecord p (lastCount history) (get_review_count srcs) send_result,
    rfl, truncate_append_getLast? _ _, rfl⟩

theorem get_review_count_range (srcs : List FetchResult) :
    600 ≤ get_review_count srcs ∧ get_review_count srcs ≤ 700 := by
  induction srcs with
  | nil => exact ⟨by decide, by decide⟩
  | cons src rest ih =>
    cases src with
    | fetchError => simpa [get_review_count] using ih
    | success found =>
      by_cases hemp : found.isEmpty
      · simpa [get_review_count, hemp] using ih
      · cases hmax : (found.filter inRange).max? with
        | some m =>
          have hm : m ∈ found.filter inRange :=
            List.max?_mem (fun a b => max_choice a b) hmax
          have hp : inRange m = true := (List.mem_filter.mp hm).2
          have hb : 600 ≤ m ∧ m ≤ 700 := by
            simpa [inRange, Bool.and_eq_true, decide_eq_true_eq] using hp
          simpa [get_review_count, hemp, hmax] using hb
        | none => simpa [get_review_count, hemp, hmax] using ih

/-- C10: every `review_count` the engine writes into an Observation lies in
the closed interval [600, 700], for every possible fetch outcome: candidates
are kept only when in range, and both fallback paths return 663, itself in
range. -/
theorem recorded_review_count_in_range (p : Policy) (srcs : List FetchResult)
    (history : List Record) (send_result : Bool) :
    ∃ r : Record,
      (run_monitoring p srcs history send_result).getLast? = some r ∧
      600 ≤ r.review_count ∧ r.review_count ≤ 700 := by
  refine ⟨newRecord p (lastCount history) (get_review_count srcs) send_result,
    truncate_append_getLast? _ _, ?_, ?_⟩
  · exact (get_review_count_range srcs).1
  · exact (get_review_count_range srcs).2

/-- C6 (code bug): at a stored previous count of 0, the engine records
`change = 0` instead of `review_count - previous_count = 663`, because line
342 tests Python truthiness (`if last_count`) rather than presence
(`is None`): with history `[{review_count: 0, ...}]` and all fetches failing
(so `current_count = 663`), the appended record has `previous_count` present
and equal to 0 yet `change = 0`, not 663. -/
theorem change_truthiness_bug :
    ((run_monitoring ⟨1, false, false, true, false⟩ []
        [⟨0, none, 0, "start", false⟩] false).getLast?).map
      (fun r => (r.previous_count, r.review_count, r.change)) =
      some (some 0, 663, 0) := by
  rfl

/-- C8: the saved history never exceeds 200 records; and when the loaded
history already holds exactly 200, one more run saves exactly 200 records
consisting of the loaded history minus its oldest record, followed by the
new record -- only the oldest overflow entry is dropped and the surviving
earliest record is the 2nd-oldest of the 201. -/
theorem history_bound (p : Policy) (srcs : List FetchResult)
    (history : List Record) (send_result : Bool) :
    (run_monitoring p srcs history send_result).length ≤ 200 ∧
    (history.length = 200 →
      (run_monitoring p srcs history send_result).length = 200 ∧
      run_monitoring p srcs history send_result =
        history.tail ++
          [newRecord p (lastCount history) (get_review_count srcs)
            send_result]) := by
  constructor
  · simp only [run_monitoring, truncateHistory, List.length_drop,
      List.length_append, List.length_singleton]
    omega
  · intro h200
    have heq : run_monitoring p srcs history send_result =
        history.tail ++
          [newRecord p (lastCount history) (get_review_count srcs)
            send_result] := by
      have hk : (history ++
          [newRecord p (lastCount history) (get_review_count srcs)
            send_result]).length - 200 = 1 := by
        simp only [List.length_append, List.length_singleton]
        omega
      show truncateHistory _ = _
      rw [truncateHistory, hk,
        List.drop_append_of_le_length (by omega), List.drop_one]
    refine ⟨?_, heq⟩
    rw [heq]
    simp only [List.length_append, List.length_tail, List.length_singleton,
      h200]

theorem history_bound_witness :
    (List.replicate 200 (⟨663, none, 0, "start", false⟩ : Record)).length
        = 200 ∧
    (run_monitoring ⟨1, false, false, true, false⟩ []
        (List.replicate 200 ⟨663, none, 0, "start", false⟩) false).length
        = 200 := by
  refine ⟨by rw [List.length_replicate], ?_⟩
  exact ((history_bound ⟨1, false, false, true, false⟩ []
    (List.replicate 200 ⟨663, none, 0, "start", false⟩) false).2
      (by rw [List.length_replicate])).1

/-- The chain condition of section 3: every record after the first carries a
`previous_count` equal to the `review_count` of the record just before it. -/
def chainOK : List Record → Bool
  | a :: b :: rest =>
    (decide (b.previous_count = some a.review_count)) && chainOK (b :: rest)
  | _ => true

theorem chainOK_cons {a : Record} {l : List Record}
    (h : chainOK (a :: l) = true) : chainOK l = true := by
  cases l with
  | nil => rfl
  | cons b t =>
    rw [chainOK, Bool.and_eq_true] at h
    exact h.2

theorem chainOK_drop (l : List Record) (n : Nat) (h : chainOK l = true) :
    chainOK (l.drop n) = true := by
  induction n generalizing l with
  | zero => simpa using h
  | succ n ih =>
    cases l with
    | nil => rfl
    | cons a t => simpa using ih t (chainOK_cons h)

theorem chainOK_concat (h : List Record) (r : Record)
    (hc : chainOK h = true) (hr : r.previous_count = lastCount h) :
    chainOK (h ++ [r]) = true := by
  induction h with
  | nil => rfl
  | cons a t ih =>
    cases t with
    | nil =>
      simp only [lastCount, List.getLast?_singleton, Option.map_some] at hr
      simp [chainOK, hr]
    | cons b t2 =>
      have hc2 : chainOK (b :: t2) = true := chainOK_cons hc
      have h1 : b.previous_count = some a.review_count := by
        rw [chainOK, Bool.and_eq_true, decide_eq_true_eq] at hc
        exact hc.1
      have hr2 : r.previous_count = lastCount (b :: t2) := by
        rw [hr, lastCount, lastCount, List.getLast?_cons_cons]
      have := ih hc2 hr2
      simp only [List.cons_append] at this ⊢
      rw [chainOK, Bool.and_eq_true, decide_eq_true_eq]
      exact ⟨h1, this⟩

theorem run_preserves_chain (p : Policy) (srcs : List FetchResult)
    (history : List Record) (send_result : Bool)
    (hc : chainOK history = true) :
    chainOK (run_monitoring p srcs history send_result) = true := by
  have hr : (newRecord p (lastCount history) (get_review_count srcs)
      send_result).previous_count = lastCount history := rfl
  exact chainOK_drop _ _ (chainOK_concat history _ hc hr)

/-- The engine iterated from an empty history: each element of `inputs`
supplies one run's fetch outcomes and send outcome. -/
def runs (p : Policy) (inputs : List (List FetchResult × Bool)) :
    List Record :=
  inputs.foldl (fun h i => run_monitoring p i.1 h i.2) []

theorem runs_foldl_chain (p : Policy)
    (inputs : List (List FetchResult × Bool)) :
    ∀ h : List Record, chainOK h = true →
      chainOK (inputs.foldl (fun h i => run_monitoring p i.1 h i.2) h)
        = true := by
  induction inputs with
  | nil => intro h hc; simpa using hc
  | cons i t ih =>
    intro h hc
    simpa [List.foldl] using ih _ (run_preserves_chain p i.1 h i.2 hc)

/-- C9: any history produced by repeated runs of the engine from an empty
store satisfies the chain invariant: each record after the first has
`previous_count` present and equal to the `review_count` of the record
before it -- the engine never introduces a gap. -/
theorem history_chain_invariant (p : Policy)
    (inputs : List (List FetchResult × Bool)) :
    chainOK (runs p inputs) = true :=
  runs_foldl_chain p inputs [] rfl
